import Mathlib

/- Verification development for the Dynamic Pricing Optimizer core:
   the CostModel, CustomerSegmentModel and PricingModel classes of
   test/models.test.js and the storage utilities (saveToStorage,
   loadFromStorage, exportAllData, importAllData) of test/storage.test.js.

   JavaScript numbers are embedded as exact rationals (ℚ).  Functions whose
   behaviour at a zero denominator matters return a JsVal, which separates
   finite results from the two infinities and NaN; jsdiv models IEEE
   division with an exactly-zero divisor. -/

/-- Result of a JavaScript numeric computation: a finite value, one of the
two infinities, or NaN. -/
inductive JsVal where
  | num (q : ℚ)
  | posInf
  | negInf
  | nan
deriving DecidableEq

/-- JavaScript division on exact operands: a nonzero divisor gives the exact
quotient; a zero divisor gives +Infinity, -Infinity or NaN according to the
sign of the numerator (zero divisors arise here as exact +0). -/
def jsdiv (a b : ℚ) : JsVal :=
  if b = 0 then
    if 0 < a then JsVal.posInf else if a < 0 then JsVal.negInf else JsVal.nan
  else JsVal.num (a / b)

/-- A direct cost entry: name, amount, unit. -/
structure DirectCost where
  name : String
  amount : ℚ
  unit : String
deriving DecidableEq

/-- An indirect cost entry: name, amount and period ("month" or "year"). -/
structure IndirectCost where
  name : String
  amount : ℚ
  period : String
deriving DecidableEq

/-- A time cost entry: name, hourly rate and hours. -/
structure TimeCost where
  name : String
  rate : ℚ
  hours : ℚ
deriving DecidableEq

/-- State of a CostModel instance. -/
structure CostModel where
  businessType : String
  directCosts : List DirectCost
  indirectCosts : List IndirectCost
  timeCosts : List TimeCost
  targetMargin : ℚ
  expectedVolume : ℚ
deriving DecidableEq

/-- new CostModel(businessType): empty cost lists, default target margin 0.30
and default expected volume 100. -/
def CostModel.init (businessType : String) : CostModel :=
  { businessType := businessType, directCosts := [], indirectCosts := [],
    timeCosts := [], targetMargin := 3/10, expectedVolume := 100 }

def CostModel.addDirectCost (cm : CostModel) (name : String) (amount : ℚ)
    (unit : String) : CostModel :=
  { cm with directCosts := cm.directCosts ++ [{ name := name, amount := amount, unit := unit }] }

def CostModel.addIndirectCost (cm : CostModel) (name : String) (amount : ℚ)
    (period : String) : CostModel :=
  { cm with indirectCosts :=
      cm.indirectCosts ++ [{ name := name, amount := amount, period := period }] }

def CostModel.addTimeCost (cm : CostModel) (name : String) (rate hours : ℚ) : CostModel :=
  { cm with timeCosts := cm.timeCosts ++ [{ name := name, rate := rate, hours := hours }] }

def CostModel.setTargetMargin (cm : CostModel) (margin : ℚ) : CostModel :=
  { cm with targetMargin := margin }

def CostModel.setExpectedVolume (cm : CostModel) (volume : ℚ) : CostModel :=
  { cm with expectedVolume := volume }

def CostModel.calculateTotalDirectCost (cm : CostModel) : ℚ :=
  cm.directCosts.foldl (fun total cost => total + cost.amount) 0

def CostModel.calculateTotalTimeCost (cm : CostModel) : ℚ :=
  cm.timeCosts.foldl (fun total cost => total + cost.rate * cost.hours) 0

/-- The indirectCosts.reduce fold normalizing yearly amounts to monthly ones;
this fold appears verbatim both in calculateAllocatedIndirectCost and in
calculateBreakEvenVolume. -/
def CostModel.monthlyIndirectCosts (cm : CostModel) : ℚ :=
  cm.indirectCosts.foldl
    (fun total cost => total + (if cost.period = "year" then cost.amount / 12 else cost.amount)) 0

def CostModel.calculateAllocatedIndirectCost (cm : CostModel) : ℚ :=
  cm.monthlyIndirectCosts / cm.expectedVolume

def CostModel.calculateTotalCostPerUnit (cm : CostModel) : ℚ :=
  cm.calculateTotalDirectCost + cm.calculateTotalTimeCost + cm.calculateAllocatedIndirectCost

def CostModel.calculateMinimumViablePrice (cm : CostModel) : ℚ :=
  cm.calculateTotalCostPerUnit / (1 - cm.targetMargin)

def CostModel.calculateBreakEvenPrice (cm : CostModel) : ℚ :=
  cm.calculateTotalCostPerUnit

def CostModel.calculateBreakEvenVolume (cm : CostModel) (price : ℚ) : JsVal :=
  if price ≤ cm.calculateTotalCostPerUnit then JsVal.posInf
  else jsdiv cm.monthlyIndirectCosts
    (price - (cm.calculateTotalDirectCost + cm.calculateTotalTimeCost))

def CostModel.calculateMarginAtPrice (cm : CostModel) (price : ℚ) : JsVal :=
  jsdiv (price - cm.calculateTotalCostPerUnit) price

/-- A customer segment as stored by the aggregator. -/
structure CustomerSegment where
  id : String
  name : String
  size : ℚ
  priceElasticity : ℚ
  description : String
deriving DecidableEq

/-- State of a CustomerSegmentModel: the segment list and the next fresh id. -/
structure CustomerSegmentModel where
  segments : List CustomerSegment
  nextId : Nat
deriving DecidableEq

def CustomerSegmentModel.init : CustomerSegmentModel :=
  { segments := [], nextId := 1 }

/-- addSegment: assigns the fresh id "seg_<nextId>", appends the segment and
returns the id together with the updated model. -/
def CustomerSegmentModel.addSegment (m : CustomerSegmentModel) (name : String)
    (size elasticity : ℚ) (description : String) : String × CustomerSegmentModel :=
  let id := "seg_" ++ toString m.nextId
  (id,
   { segments := m.segments ++
       [{ id := id, name := name, size := size, priceElasticity := elasticity,
          description := description }],
     nextId := m.nextId + 1 })

def CustomerSegmentModel.calculateWeightedElasticity (m : CustomerSegmentModel) : JsVal :=
  if m.segments.length = 0 then JsVal.num (-(1/2))
  else
    jsdiv (m.segments.foldl (fun sum seg => sum + seg.priceElasticity * seg.size) 0)
          (m.segments.foldl (fun sum seg => sum + seg.size) 0)

/-- The market position strings accepted by setMarketPosition. -/
inductive MarketPosition where
  | budget
  | midMarket
  | premium
deriving DecidableEq

def MarketPosition.toText : MarketPosition → String
  | MarketPosition.budget => "budget"
  | MarketPosition.midMarket => "mid-market"
  | MarketPosition.premium => "premium"

/-- A competitor entry; overallValue is computed once at insertion time. -/
structure Competitor where
  name : String
  price : ℚ
  attributes : List (String × ℚ)
  overallValue : ℚ
deriving DecidableEq

structure ValueFactor where
  name : String
  importance : ℚ
  score : ℚ
deriving DecidableEq

/-- State of a PricingModel instance. -/
structure PricingModel where
  costModel : CostModel
  competitors : List Competitor
  valueFactors : List ValueFactor
  customerSegmentModel : CustomerSegmentModel
  marketPosition : MarketPosition
  baseDemand : ℚ
deriving DecidableEq

/-- new PricingModel(costModel): empty lists, a fresh segment model,
mid-market position and base demand 100. -/
def PricingModel.init (costModel : CostModel) : PricingModel :=
  { costModel := costModel, competitors := [], valueFactors := [],
    customerSegmentModel := CustomerSegmentModel.init,
    marketPosition := MarketPosition.midMarket, baseDemand := 100 }

/-- calculateOverallValue(attributes): mean of the attribute values, or the
default mid-value 5 when no attributes are given. -/
def PricingModel.calculateOverallValue (attributes : List (String × ℚ)) : ℚ :=
  if attributes.length = 0 then 5
  else (attributes.foldl (fun sum a => sum + a.2) 0) / (attributes.length : ℚ)

def PricingModel.addCompetitor (m : PricingModel) (name : String) (price : ℚ)
    (attributes : List (String × ℚ)) : PricingModel :=
  { m with competitors := m.competitors ++
      [{ name := name, price := price, attributes := attributes,
         overallValue := PricingModel.calculateOverallValue attributes }] }

def PricingModel.addValueFactor (m : PricingModel) (name : String)
    (importance score : ℚ) : PricingModel :=
  { m with valueFactors :=
      m.valueFactors ++ [{ name := name, importance := importance, score := score }] }

/-- The 1-10 UI price-sensitivity scale to internal elasticity conversion
performed by PricingModel.addSegment:
elasticity = -((priceElasticity / 10) * 9.5 + 0.5). -/
def elasticityFromScale (scale : ℚ) : ℚ :=
  -((scale / 10) * (19/2) + 1/2)

def PricingModel.addSegment (m : PricingModel) (name : String) (size scale : ℚ)
    (description : String) : String × PricingModel :=
  let r := m.customerSegmentModel.addSegment name size (elasticityFromScale scale) description
  (r.1, { m with customerSegmentModel := r.2 })

/-- setMarketPosition: the update happens only inside the membership check;
any other string throws the validation Error, modelled by Except.error, and
the state is untouched. -/
def PricingModel.setMarketPosition (m : PricingModel) (position : String) :
    Except String PricingModel :=
  if position = "budget" then Except.ok { m with marketPosition := MarketPosition.budget }
  else if position = "mid-market" then
    Except.ok { m with marketPosition := MarketPosition.midMarket }
  else if position = "premium" then
    Except.ok { m with marketPosition := MarketPosition.premium }
  else Except.error "Market position must be \"budget\", \"mid-market\", or \"premium\""

/-- Position multipliers of calculateCostPlusPrice. -/
def costPlusPositionMultiplier : MarketPosition → ℚ
  | MarketPosition.budget => 9/10
  | MarketPosition.midMarket => 1
  | MarketPosition.premium => 6/5

/-- Position multipliers of calculateCompetitorIndexedPrice. -/
def competitorPositionMultiplier : MarketPosition → ℚ
  | MarketPosition.budget => 17/20
  | MarketPosition.midMarket => 1
  | MarketPosition.premium => 5/4

/-- Position multipliers of calculateValueBasedPrice. -/
def valuePositionMultiplier : MarketPosition → ℚ
  | MarketPosition.budget => 9/10
  | MarketPosition.midMarket => 1
  | MarketPosition.premium => 23/20

def PricingModel.calculateCostPlusPrice (m : PricingModel) (marginMultiplier : ℚ) : ℚ :=
  m.costModel.calculateMinimumViablePrice * costPlusPositionMultiplier m.marketPosition *
    marginMultiplier

def PricingModel.calculateCompetitorIndexedPrice (m : PricingModel) : ℚ :=
  if m.competitors.length = 0 then m.calculateCostPlusPrice 1
  else
    let avgCompetitorPrice :=
      (m.competitors.foldl (fun sum c => sum + c.price) 0) / (m.competitors.length : ℚ)
    let basePrice := avgCompetitorPrice * competitorPositionMultiplier m.marketPosition
    max basePrice m.costModel.calculateMinimumViablePrice

def PricingModel.calculateValueBasedPrice (m : PricingModel) : ℚ :=
  if m.competitors.length = 0 ∨ m.valueFactors.length = 0 then m.calculateCostPlusPrice 1
  else
    let valueScore :=
      (m.valueFactors.foldl (fun sum f => sum + f.importance * f.score) 0) /
        (m.valueFactors.foldl (fun sum f => sum + f.importance) 0)
    let avgCompetitorPrice :=
      (m.competitors.foldl (fun sum c => sum + c.price) 0) / (m.competitors.length : ℚ)
    let avgCompetitorValue :=
      (m.competitors.foldl (fun sum c => sum + c.overallValue) 0) / (m.competitors.length : ℚ)
    let marketValueToPrice := avgCompetitorValue / avgCompetitorPrice
    let valueBasedPrice :=
      (valueScore / marketValueToPrice) * valuePositionMultiplier m.marketPosition
    max valueBasedPrice m.costModel.calculateMinimumViablePrice

/-- Math.round on an exact value: nearest integer, ties toward +infinity. -/
def jsRound (q : ℚ) : ℤ := Int.floor (q + 1/2)

/-- Math.round(q * 100) / 100, the 2-decimal rounding of the recommendations. -/
def roundTo2 (q : ℚ) : ℚ := (jsRound (q * 100) : ℚ) / 100

/-- Number.prototype.toFixed(0), as used in the cost-plus explanation. -/
def toFixed0 (q : ℚ) : String := toString (jsRound q)

/-- The price computed by the strategy switch of getPriceRecommendation,
before rounding; the default branch is the optimal weighted blend. -/
def PricingModel.strategyPrice (m : PricingModel) (strategy : String) : ℚ :=
  if strategy = "cost-plus" then m.calculateCostPlusPrice 1
  else if strategy = "competitor" then m.calculateCompetitorIndexedPrice
  else if strategy = "value" then m.calculateValueBasedPrice
  else
    m.calculateCostPlusPrice 1 * (2/5) + m.calculateCompetitorIndexedPrice * (3/10) +
      m.calculateValueBasedPrice * (3/10)

/-- The explanation string computed by the strategy switch. -/
def PricingModel.strategyExplanation (m : PricingModel) (strategy : String) : String :=
  if strategy = "cost-plus" then
    "Based on your cost structure and desired " ++ m.marketPosition.toText ++
      " positioning, this price ensures your target margin of " ++
      toFixed0 (m.costModel.targetMargin * 100) ++ "%."
  else if strategy = "competitor" then
    "This price positions your offering in the " ++ m.marketPosition.toText ++
      " segment relative to your competitors while ensuring profitability."
  else if strategy = "value" then
    "Based on your superior value offering, this price reflects the premium value you provide while maintaining competitive positioning."
  else
    "This optimal price balances your cost structure, competitive positioning, and value differentiation to maximize long-term profitability."

/-- The confidence level computed by the strategy switch. -/
def PricingModel.strategyConfidence (m : PricingModel) (strategy : String) : ℚ :=
  if strategy = "cost-plus" then 4/5
  else if strategy = "competitor" then (if 2 < m.competitors.length then 7/10 else 1/2)
  else if strategy = "value" then
    (if 0 < m.competitors.length ∧ 2 < m.valueFactors.length then 3/4 else 2/5)
  else 13/20

/-- The object returned by getPriceRecommendation. -/
structure Recommendation where
  price : ℚ
  explanation : String
  confidenceLevel : ℚ
  margin : JsVal
  breakEvenVolume : JsVal
deriving DecidableEq

/-- getPriceRecommendation: the returned price is rounded to 2 decimal places,
while margin and breakEvenVolume are computed from the pre-rounding price
variable of the strategy switch. -/
def PricingModel.getPriceRecommendation (m : PricingModel) (strategy : String) :
    Recommendation :=
  let price := m.strategyPrice strategy
  { price := roundTo2 price,
    explanation := m.strategyExplanation strategy,
    confidenceLevel := m.strategyConfidence strategy,
    margin := m.costModel.calculateMarginAtPrice price,
    breakEvenVolume := m.costModel.calculateBreakEvenVolume price }

def PricingModel.getAllPriceRecommendations (m : PricingModel) :
    List (String × Recommendation) :=
  [("cost-plus", m.getPriceRecommendation "cost-plus"),
   ("competitor", m.getPriceRecommendation "competitor"),
   ("value", m.getPriceRecommendation "value"),
   ("optimal", m.getPriceRecommendation "optimal")]

/-- JSON values as produced by JSON.parse. -/
inductive JVal where
  | jnull
  | jbool (b : Bool)
  | jnum (q : ℚ)
  | jstr (s : String)
  | jarr (elems : List JVal)
  | jobj (fields : List (String × JVal))

def JVal.isNull : JVal → Bool
  | JVal.jnull => true
  | _ => false

/-- The localStorage backend, keyed by storage key.  setItem stores
JSON.stringify(data) and reads apply JSON.parse, which round-trips, so the
store is modelled at the level of parsed JSON values; a missing key is none. -/
abbrev Store := String → Option JVal

def Store.set (st : Store) (key : String) (v : JVal) : Store :=
  fun k => if k = key then some v else st k

/-- saveToStorage(key, data): JSON.stringify plus localStorage.setItem; the
mock backend never throws, so the success flag is constant true and omitted. -/
def saveToStorage (st : Store) (key : String) (data : JVal) : Store :=
  Store.set st key data

/-- loadFromStorage(key, defaultValue): the parsed stored value, or the
default when the key is absent. -/
def loadFromStorage (st : Store) (key : String) (defaultValue : JVal) : JVal :=
  match st key with
  | some v => v
  | none => defaultValue

/-- STORAGE_KEYS: category name to localStorage key. -/
def STORAGE_KEYS : List (String × String) :=
  [("COST_ANALYSIS", "dpo_cost_analysis"),
   ("PRICING_STRATEGY", "dpo_pricing_strategy"),
   ("BUSINESS_PROFILE", "dpo_business_profile"),
   ("COMPETITORS", "dpo_competitors"),
   ("VALUE_FACTORS", "dpo_value_factors"),
   ("VALUE_PROPOSITION", "dpo_value_proposition"),
   ("VALUE_MAP", "dpo_value_map"),
   ("COMMUNICATION", "dpo_communication"),
   ("SETTINGS", "dpo_settings"),
   ("SCENARIOS", "dpo_scenarios")]

/-- The own property names of Object.prototype; the property access
STORAGE_KEYS[name] falls through to these when name is not an own entry, and
every one of them is a truthy value (a native function, or the prototype
object itself for the accessor member). -/
def objectPrototypeMembers : List String :=
  ["constructor", "hasOwnProperty", "isPrototypeOf", "propertyIsEnumerable",
   "toLocaleString", "toString", "valueOf", "__defineGetter__", "__defineSetter__",
   "__lookupGetter__", "__lookupSetter__", "__proto__"]

/-- The store key an inherited Object.prototype member coerces to when the
mock backend uses it as a property key (this.store[key]): a native function
stringifies to its source form and the accessor member yields the prototype
object, which stringifies to "[object Object]". -/
def prototypeMemberKey (name : String) : String :=
  if name = "__proto__" then "[object Object]"
  else "function " ++ name ++ "() \x7b [native code] \x7d"

/-- The property access STORAGE_KEYS[name], as the guard and write target of
importAllData: a recognized category name gives its storage key; a name of an
inherited Object.prototype member is also truthy, and the write then lands on
the store key that member coerces to inside saveToStorage; any other name is
undefined (falsy), so the entry is skipped. -/
def storageKeyFor (name : String) : Option String :=
  match (STORAGE_KEYS.find? (fun p => p.1 == name)).map (fun p => p.2) with
  | some sk => some sk
  | none =>
    if name ∈ objectPrototypeMembers then some (prototypeMemberKey name) else none

/-- exportAllData: one document whose fields are the category names, each
holding loadFromStorage(storageKey) with default null. -/
def exportAllData (st : Store) : JVal :=
  JVal.jobj (STORAGE_KEYS.map (fun p => (p.1, loadFromStorage st p.2 JVal.jnull)))

/-- Object.entries applied to a parsed JSON value: the own enumerable entries;
it throws on null (none), indexes arrays and strings, and gives no entries on
the other primitives. -/
def jsEntries : JVal → Option (List (String × JVal))
  | JVal.jnull => none
  | JVal.jobj fields => some fields
  | JVal.jarr elems => some (elems.enum.map (fun p => (toString p.1, p.2)))
  | JVal.jstr s =>
    some (s.toList.enum.map (fun p => (toString p.1, JVal.jstr (String.mk [p.2]))))
  | JVal.jbool _ => some []
  | JVal.jnum _ => some []

/-- importAllData(jsonData): the argument is the result of JSON.parse on the
input string, with none standing for a string JSON.parse rejects (the catch
then returns false before the store is touched).  For a parsed document every
entry whose key is a recognized category and whose content is not null is
written through saveToStorage; all other entries are skipped; returns true. -/
def importAllData (input : Option JVal) (st : Store) : Bool × Store :=
  match input with
  | none => (false, st)
  | some v =>
    match jsEntries v with
    | none => (false, st)
    | some entries =>
      (true,
       entries.foldl
         (fun acc p =>
           match storageKeyFor p.1 with
           | some sk => if p.2.isNull then acc else saveToStorage acc sk p.2
           | none => acc)
         st)

/-- The (store key, content) writes importAllData performs for a parsed
document, in document order: recognized categories write their storage key,
and non-null entries named after inherited Object.prototype members write the
key that member coerces to. -/
def performedWrites (fields : List (String × JVal)) : List (String × JVal) :=
  fields.filterMap
    (fun p =>
      match storageKeyFor p.1 with
      | some sk => if p.2.isNull then none else some (sk, p.2)
      | none => none)

/-- The CostModel of Test 1 of models.test.js: direct 50, indirect 2000 per
month, time 75 x 8, target margin 0.30, expected volume 20. -/
def cmExample : CostModel :=
  (((((CostModel.init "service").addDirectCost "Materials" 50 "unit").addIndirectCost
      "Office Space" 2000 "month").addTimeCost "Developer" 75 8).setTargetMargin
      (3/10)).setExpectedVolume 20

/-- A cost model whose cost-plus price 10/7 does not land on 2 decimals. -/
def cmRound : CostModel :=
  (CostModel.init "service").addDirectCost "Materials" 1 "unit"

def pmExample : PricingModel := PricingModel.init cmExample

def pmRound : PricingModel := PricingModel.init cmRound

def pmComp : PricingModel := (PricingModel.init cmExample).addCompetitor "Competitor A" 1000 []

/-- A nonempty aggregator whose single segment has size 0. -/
def segZero : CustomerSegmentModel :=
  (CustomerSegmentModel.init.addSegment "Tiny" 0 (-2) "").2

def segEnterprise : CustomerSegmentModel :=
  (CustomerSegmentModel.init.addSegment "Enterprise" 30 (-2) "").2

/-- A running-sum foldl equals the initial value plus the mapped sum. -/
theorem foldl_add_map {α : Type} (f : α → ℚ) :
    ∀ (l : List α) (c : ℚ), l.foldl (fun s x => s + f x) c = c + (l.map f).sum := by
  intro l
  induction l with
  | nil => intro c; simp
  | cons x xs ih =>
    intro c
    rw [List.foldl_cons, ih, List.map_cons, List.sum_cons]
    ring

/-- The monthly-normalization fold written as a mapped sum. -/
theorem monthlyIndirectCosts_eq_sum (cm : CostModel) :
    cm.monthlyIndirectCosts =
      (cm.indirectCosts.map
        (fun c => if c.period = "year" then c.amount / 12 else c.amount)).sum := by
  unfold CostModel.monthlyIndirectCosts
  rw [foldl_add_map (fun c : IndirectCost =>
    if c.period = "year" then c.amount / 12 else c.amount)]
  simp

/-- Nonnegative indirect amounts give a nonnegative monthly indirect total. -/
theorem monthlyIndirectCosts_nonneg (cm : CostModel)
    (h : ∀ c ∈ cm.indirectCosts, 0 ≤ c.amount) : 0 ≤ cm.monthlyIndirectCosts := by
  rw [monthlyIndirectCosts_eq_sum]
  apply List.sum_nonneg
  intro x hx
  rcases List.mem_map.mp hx with ⟨c, hc, rfl⟩
  by_cases hp : c.period = "year"
  · simp only [hp, if_pos]
    exact div_nonneg (h c hc) (by norm_num)
  · simp only [hp, if_neg, ite_false]
    exact h c hc

/-- C1 (amended): for a cost configuration with target margin in [0,1),
positive expected volume and a nonzero total cost per unit,
calculateMarginAtPrice(calculateMinimumViablePrice()) equals targetMargin
exactly. -/
theorem c1_margin_at_minimum_viable_price (cm : CostModel)
    (_h0 : 0 ≤ cm.targetMargin) (h1 : cm.targetMargin < 1)
    (_h2 : 0 < cm.expectedVolume) (hC : cm.calculateTotalCostPerUnit ≠ 0) :
    cm.calculateMarginAtPrice cm.calculateMinimumViablePrice =
      JsVal.num cm.targetMargin := by
  have hm0 : (0 : ℚ) < 1 - cm.targetMargin := by linarith
  have hm : (1 : ℚ) - cm.targetMargin ≠ 0 := hm0.ne'
  have hp : cm.calculateMinimumViablePrice ≠ 0 := by
    unfold CostModel.calculateMinimumViablePrice
    exact div_ne_zero hC hm
  unfold CostModel.calculateMarginAtPrice jsdiv
  rw [if_neg hp]
  congr 1
  unfold CostModel.calculateMinimumViablePrice at hp ⊢
  field_simp
  ring

/-- C1 counterexample: the default CostModel (no costs, margin 0.30,
volume 100) satisfies the stated hypotheses, yet the minimum viable price is
0 and calculateMarginAtPrice(0) is the NaN division 0/0, not the target
margin. -/
theorem c1_counterexample :
    0 ≤ (CostModel.init "service").targetMargin ∧
    (CostModel.init "service").targetMargin < 1 ∧
    0 < (CostModel.init "service").expectedVolume ∧
    (CostModel.init "service").calculateMarginAtPrice
      (CostModel.init "service").calculateMinimumViablePrice = JsVal.nan ∧
    (CostModel.init "service").calculateMarginAtPrice
        (CostModel.init "service").calculateMinimumViablePrice ≠
      JsVal.num (CostModel.init "service").targetMargin := by
  have h : (CostModel.init "service").calculateMarginAtPrice
      (CostModel.init "service").calculateMinimumViablePrice = JsVal.nan := by
    norm_num [CostModel.init, CostModel.calculateMarginAtPrice,
      CostModel.calculateMinimumViablePrice, CostModel.calculateTotalCostPerUnit,
      CostModel.calculateTotalDirectCost, CostModel.calculateTotalTimeCost,
      CostModel.calculateAllocatedIndirectCost, CostModel.monthlyIndirectCosts, jsdiv]
  refine ⟨by norm_num [CostModel.init], by norm_num [CostModel.init],
    by norm_num [CostModel.init], h, ?_⟩
  rw [h]
  simp

/-- The costs "month" period is not "year". -/
theorem month_ne_year : ("month" : String) ≠ "year" := by decide

/-- The Test 1 cost model has total cost per unit 750. -/
theorem cmExample_total_cost : cmExample.calculateTotalCostPerUnit = 750 := by
  norm_num [cmExample, CostModel.init, CostModel.setTargetMargin, CostModel.setExpectedVolume,
    CostModel.addDirectCost, CostModel.addIndirectCost, CostModel.addTimeCost,
    CostModel.calculateTotalCostPerUnit, CostModel.calculateTotalDirectCost,
    CostModel.calculateTotalTimeCost, CostModel.calculateAllocatedIndirectCost,
    CostModel.monthlyIndirectCosts, if_neg month_ne_year]

/-- C1 witness: the concrete Test 1 cost model attains the target margin at
its minimum viable price. -/
theorem c1_witness :
    cmExample.calculateMarginAtPrice cmExample.calculateMinimumViablePrice =
      JsVal.num cmExample.targetMargin :=
  c1_margin_at_minimum_viable_price cmExample
    (by norm_num [show cmExample.targetMargin = 3/10 from rfl])
    (by norm_num [show cmExample.targetMargin = 3/10 from rfl])
    (by norm_num [show cmExample.expectedVolume = 20 from rfl])
    (by rw [cmExample_total_cost]; norm_num)

/-- C2: for a CostModel whose indirect amounts are nonnegative and whose
expected volume is positive (the data-model invariants),
calculateBreakEvenVolume(price) is +Infinity when price is at most the total
cost per unit, and otherwise is the monthly-normalized indirect cost total
divided by (price - totalDirectCost - totalTimeCost). -/
theorem c2_break_even_volume (cm : CostModel)
    (hA : ∀ c ∈ cm.indirectCosts, 0 ≤ c.amount) (hV : 0 < cm.expectedVolume) (price : ℚ) :
    (price ≤ cm.calculateTotalCostPerUnit →
      cm.calculateBreakEvenVolume price = JsVal.posInf) ∧
    (cm.calculateTotalCostPerUnit < price →
      cm.calculateBreakEvenVolume price =
        JsVal.num ((cm.indirectCosts.map
            (fun c => if c.period = "year" then c.amount / 12 else c.amount)).sum /
          (price - (cm.calculateTotalDirectCost + cm.calculateTotalTimeCost)))) := by
  constructor
  · intro h
    unfold CostModel.calculateBreakEvenVolume
    rw [if_pos h]
  · intro h
    have hmono : 0 ≤ cm.monthlyIndirectCosts := monthlyIndirectCosts_nonneg cm hA
    have halloc : 0 ≤ cm.monthlyIndirectCosts / cm.expectedVolume :=
      div_nonneg hmono hV.le
    have hcontrib :
        0 < price - (cm.calculateTotalDirectCost + cm.calculateTotalTimeCost) := by
      unfold CostModel.calculateTotalCostPerUnit CostModel.calculateAllocatedIndirectCost at h
      linarith
    unfold CostModel.calculateBreakEvenVolume
    rw [if_neg (not_le.mpr h)]
    unfold jsdiv
    rw [if_neg hcontrib.ne', monthlyIndirectCosts_eq_sum]

/-- C2 witness: the Test 1 cost model (total cost per unit 750) cannot break
even at price 700 and has the stated finite break-even volume at price 1200. -/
theorem c2_witness :
    cmExample.calculateBreakEvenVolume 700 = JsVal.posInf ∧
    cmExample.calculateBreakEvenVolume 1200 =
      JsVal.num ((cmExample.indirectCosts.map
          (fun c => if c.period = "year" then c.amount / 12 else c.amount)).sum /
        (1200 - (cmExample.calculateTotalDirectCost + cmExample.calculateTotalTimeCost))) := by
  have hA : ∀ c ∈ cmExample.indirectCosts, 0 ≤ c.amount := by
    intro c hc
    have hl : cmExample.indirectCosts =
        [{ name := "Office Space", amount := 2000, period := "month" }] := rfl
    rw [hl] at hc
    have := List.mem_singleton.mp hc
    subst this
    norm_num
  have hV : (0 : ℚ) < cmExample.expectedVolume := by
    norm_num [show cmExample.expectedVolume = 20 from rfl]
  exact ⟨(c2_break_even_volume cmExample hA hV 700).1
      (by rw [cmExample_total_cost]; norm_num),
    (c2_break_even_volume cmExample hA hV 1200).2
      (by rw [cmExample_total_cost]; norm_num)⟩

/-- C3: calculateCompetitorIndexedPrice falls back to calculateCostPlusPrice()
when there are no competitors; otherwise it is the maximum of the mean
competitor price times the competitor position multiplier and the minimum
viable price, and in particular never lies below the minimum viable price. -/
theorem c3_competitor_indexed_price (m : PricingModel) :
    (m.competitors = [] → m.calculateCompetitorIndexedPrice = m.calculateCostPlusPrice 1) ∧
    (m.competitors ≠ [] →
      m.calculateCompetitorIndexedPrice =
        max (((m.competitors.map (fun c => c.price)).sum / (m.competitors.length : ℚ)) *
              competitorPositionMultiplier m.marketPosition)
            m.costModel.calculateMinimumViablePrice ∧
      m.costModel.calculateMinimumViablePrice ≤ m.calculateCompetitorIndexedPrice) := by
  constructor
  · intro h
    unfold PricingModel.calculateCompetitorIndexedPrice
    rw [if_pos (by rw [h]; rfl)]
  · intro h
    have hlen : ¬ m.competitors.length = 0 := by
      simpa [List.length_eq_zero] using h
    have hEq : m.calculateCompetitorIndexedPrice =
        max (((m.competitors.map (fun c => c.price)).sum / (m.competitors.length : ℚ)) *
            competitorPositionMultiplier m.marketPosition)
          m.costModel.calculateMinimumViablePrice := by
      unfold PricingModel.calculateCompetitorIndexedPrice
      rw [if_neg hlen]
      show max (((m.competitors.foldl (fun sum c => sum + c.price) 0) /
          (m.competitors.length : ℚ)) * competitorPositionMultiplier m.marketPosition)
        m.costModel.calculateMinimumViablePrice = _
      simp only [foldl_add_map (fun c : Competitor => c.price), zero_add]
    exact ⟨hEq, by rw [hEq]; exact le_max_right _ _⟩

/-- C3 witness: with no competitors the competitor-indexed price of the Test 1
model is its cost-plus price, and with one competitor it is at least the
minimum viable price. -/
theorem c3_witness :
    pmExample.calculateCompetitorIndexedPrice = pmExample.calculateCostPlusPrice 1 ∧
    pmComp.costModel.calculateMinimumViablePrice ≤ pmComp.calculateCompetitorIndexedPrice :=
  ⟨(c3_competitor_indexed_price pmExample).1 rfl,
   ((c3_competitor_indexed_price pmComp).2 (by decide)).2⟩

/-- C4: the price of getPriceRecommendation("optimal") is the weighted blend
0.4 x cost-plus + 0.3 x competitor-indexed + 0.3 x value-based, rounded to two
decimal places. -/
theorem c4_optimal_recommendation_price (m : PricingModel) :
    (m.getPriceRecommendation "optimal").price =
      roundTo2 ((2/5) * m.calculateCostPlusPrice 1 +
        (3/10) * m.calculateCompetitorIndexedPrice +
        (3/10) * m.calculateValueBasedPrice) := by
  have h : m.strategyPrice "optimal" =
      (2/5) * m.calculateCostPlusPrice 1 + (3/10) * m.calculateCompetitorIndexedPrice +
        (3/10) * m.calculateValueBasedPrice := by
    unfold PricingModel.strategyPrice
    rw [if_neg (by decide : ¬ ("optimal" : String) = "cost-plus"),
      if_neg (by decide : ¬ ("optimal" : String) = "competitor"),
      if_neg (by decide : ¬ ("optimal" : String) = "value")]
    ring
  show roundTo2 (m.strategyPrice "optimal") = _
  rw [h]

/-- C5 (amended): calculateWeightedElasticity returns -0.5 when no segments
exist and the size-weighted mean elasticity when segments exist and the total
size is nonzero; only the no-segments case is guarded — a nonempty segment
list of total size zero reaches the division unguarded (see the
counterexample). -/
theorem c5_weighted_elasticity (s : CustomerSegmentModel) :
    (s.segments = [] → s.calculateWeightedElasticity = JsVal.num (-(1/2))) ∧
    (s.segments ≠ [] → (s.segments.map (fun seg => seg.size)).sum ≠ 0 →
      s.calculateWeightedElasticity =
        JsVal.num ((s.segments.map (fun seg => seg.priceElasticity * seg.size)).sum /
          (s.segments.map (fun seg => seg.size)).sum)) := by
  constructor
  · intro h
    unfold CustomerSegmentModel.calculateWeightedElasticity
    rw [if_pos (by rw [h]; rfl)]
  · intro h hs
    have hlen : ¬ s.segments.length = 0 := by
      simpa [List.length_eq_zero] using h
    unfold CustomerSegmentModel.calculateWeightedElasticity
    rw [if_neg hlen]
    unfold jsdiv
    simp only [foldl_add_map (fun seg : CustomerSegment => seg.priceElasticity * seg.size),
      foldl_add_map (fun seg : CustomerSegment => seg.size), zero_add]
    rw [if_neg hs]

/-- C5 counterexample: a single segment of size 0 gives a nonempty segment
list with total size 0; calculateWeightedElasticity reaches the unguarded
division 0 / 0 and produces NaN instead of a fallback value. -/
theorem c5_counterexample :
    segZero.segments ≠ [] ∧ segZero.calculateWeightedElasticity = JsVal.nan := by
  constructor
  · decide
  · norm_num [segZero, CustomerSegmentModel.init, CustomerSegmentModel.addSegment,
      CustomerSegmentModel.calculateWeightedElasticity, jsdiv]

/-- C5 witness: the empty aggregator returns the default -0.5, and a one
segment aggregator of size 30 returns its weighted mean elasticity. -/
theorem c5_witness :
    CustomerSegmentModel.init.calculateWeightedElasticity = JsVal.num (-(1/2)) ∧
    segEnterprise.calculateWeightedElasticity =
      JsVal.num ((segEnterprise.segments.map (fun seg => seg.priceElasticity * seg.size)).sum /
        (segEnterprise.segments.map (fun seg => seg.size)).sum) := by
  refine ⟨(c5_weighted_elasticity CustomerSegmentModel.init).1 rfl,
    (c5_weighted_elasticity segEnterprise).2 (by decide) ?_⟩
  norm_num [segEnterprise, CustomerSegmentModel.init, CustomerSegmentModel.addSegment]

/-- C6 (amended): PricingModel.addSegment stores a segment whose internal
priceElasticity is -((scale/10)*9.5 + 0.5); over the 1-10 UI range the stored
values lie in [-10, -1.45], with -10 attained at scale 10 and -1.45 at scale 1
(the claimed end -0.5 corresponds to scale 0, outside the 1-10 range; see the
counterexample). -/
theorem c6_add_segment_scale (m : PricingModel) (name : String) (size scale : ℚ)
    (description : String) (h1 : 1 ≤ scale) (h10 : scale ≤ 10) :
    ((m.addSegment name size scale description).2.customerSegmentModel.segments =
      m.customerSegmentModel.segments ++
        [{ id := "seg_" ++ toString m.customerSegmentModel.nextId, name := name,
           size := size, priceElasticity := elasticityFromScale scale,
           description := description }]) ∧
    (-10 ≤ elasticityFromScale scale ∧ elasticityFromScale scale ≤ -(29/20)) ∧
    elasticityFromScale 10 = -10 ∧ elasticityFromScale 1 = -(29/20) := by
  refine ⟨rfl, ⟨?_, ?_⟩, by norm_num [elasticityFromScale], by norm_num [elasticityFromScale]⟩
  · unfold elasticityFromScale
    linarith
  · unfold elasticityFromScale
    linarith

/-- C6 counterexample: no scale in the 1-10 UI range produces the elasticity
-0.5 (that value would require scale 0), so the 1-10 inputs do not cover the
range [-10, -0.5]. -/
theorem c6_counterexample :
    ¬ ∃ scale : ℚ, 1 ≤ scale ∧ scale ≤ 10 ∧ elasticityFromScale scale = -(1/2) := by
  rintro ⟨s, h1, h10, he⟩
  unfold elasticityFromScale at he
  linarith

/-- C6 witness: adding a segment at scale 3 to the Test 1 pricing model stores
elasticity -((3/10)*9.5 + 0.5), which lies in [-10, -1.45]. -/
theorem c6_witness :
    ((pmExample.addSegment "Enterprise" 30 3 "large").2.customerSegmentModel.segments =
      pmExample.customerSegmentModel.segments ++
        [{ id := "seg_1", name := "Enterprise", size := 30,
           priceElasticity := elasticityFromScale 3, description := "large" }]) ∧
    -10 ≤ elasticityFromScale 3 ∧ elasticityFromScale 3 ≤ -(29/20) := by
  obtain ⟨ha, hb, _⟩ := c6_add_segment_scale pmExample "Enterprise" 30 3 "large"
    (by norm_num) (by norm_num)
  exact ⟨ha, hb⟩

/-- C9: setMarketPosition accepts exactly budget, mid-market and premium,
setting marketPosition to the matching position; any other string produces
the validation error, and since the update sits inside the membership test
the state is untouched on that path. -/
theorem c9_set_market_position (m : PricingModel) :
    (∀ position : String,
      position ≠ "budget" → position ≠ "mid-market" → position ≠ "premium" →
      m.setMarketPosition position =
        Except.error "Market position must be \"budget\", \"mid-market\", or \"premium\"") ∧
    m.setMarketPosition "budget" =
      Except.ok { m with marketPosition := MarketPosition.budget } ∧
    m.setMarketPosition "mid-market" =
      Except.ok { m with marketPosition := MarketPosition.midMarket } ∧
    m.setMarketPosition "premium" =
      Except.ok { m with marketPosition := MarketPosition.premium } := by
  refine ⟨?_, rfl, rfl, rfl⟩
  intro position hb hm hp
  unfold PricingModel.setMarketPosition
  rw [if_neg hb, if_neg hm, if_neg hp]

/-- C9 witness: setMarketPosition("luxury") on the Test 1 pricing model is the
validation error, while setMarketPosition("premium") updates the position. -/
theorem c9_witness :
    pmExample.setMarketPosition "luxury" =
      Except.error "Market position must be \"budget\", \"mid-market\", or \"premium\"" ∧
    pmExample.setMarketPosition "premium" =
      Except.ok { pmExample with marketPosition := MarketPosition.premium } :=
  ⟨(c9_set_market_position pmExample).1 "luxury" (by decide) (by decide) (by decide),
   (c9_set_market_position pmExample).2.2.2⟩

/-- The cost-plus strategy price of pmRound is exactly 10/7. -/
theorem pmRound_cost_plus_price : pmRound.strategyPrice "cost-plus" = 10/7 := by
  unfold PricingModel.strategyPrice
  rw [if_pos rfl]
  norm_num [PricingModel.calculateCostPlusPrice, pmRound, PricingModel.init,
    costPlusPositionMultiplier, CostModel.calculateMinimumViablePrice,
    CostModel.calculateTotalCostPerUnit, CostModel.calculateTotalDirectCost,
    CostModel.calculateTotalTimeCost, CostModel.calculateAllocatedIndirectCost,
    CostModel.monthlyIndirectCosts, cmRound, CostModel.init, CostModel.addDirectCost]

/-- C10: every recommendation rounds only the price field — margin and
breakEvenVolume are computed from the unrounded strategy price — and at the
concrete model pmRound (cost-plus price 10/7) rounding changes the price, so
the stored margin differs from the margin at the returned price. -/
theorem c10_fields_from_unrounded_price :
    (∀ (m : PricingModel) (strategy : String),
      (m.getPriceRecommendation strategy).price = roundTo2 (m.strategyPrice strategy) ∧
      (m.getPriceRecommendation strategy).margin =
        m.costModel.calculateMarginAtPrice (m.strategyPrice strategy) ∧
      (m.getPriceRecommendation strategy).breakEvenVolume =
        m.costModel.calculateBreakEvenVolume (m.strategyPrice strategy)) ∧
    roundTo2 (pmRound.strategyPrice "cost-plus") ≠ pmRound.strategyPrice "cost-plus" ∧
    (pmRound.getPriceRecommendation "cost-plus").margin ≠
      pmRound.costModel.calculateMarginAtPrice
        ((pmRound.getPriceRecommendation "cost-plus").price) := by
  have hround : roundTo2 (10/7 : ℚ) = 143/100 := by
    norm_num [roundTo2, jsRound]
  refine ⟨fun m strategy => ⟨rfl, rfl, rfl⟩, ?_, ?_⟩
  · rw [pmRound_cost_plus_price, hround]
    norm_num
  · have h1 : (pmRound.getPriceRecommendation "cost-plus").margin =
        pmRound.costModel.calculateMarginAtPrice (10/7) := by
      rw [show (pmRound.getPriceRecommendation "cost-plus").margin =
          pmRound.costModel.calculateMarginAtPrice (pmRound.strategyPrice "cost-plus")
        from rfl, pmRound_cost_plus_price]
    have h2 : (pmRound.getPriceRecommendation "cost-plus").price = 143/100 := by
      rw [show (pmRound.getPriceRecommendation "cost-plus").price =
          roundTo2 (pmRound.strategyPrice "cost-plus") from rfl,
        pmRound_cost_plus_price, hround]
    rw [h1, h2]
    norm_num [CostModel.calculateMarginAtPrice, jsdiv, pmRound, PricingModel.init,
      cmRound, CostModel.init, CostModel.addDirectCost, CostModel.calculateTotalCostPerUnit,
      CostModel.calculateTotalDirectCost, CostModel.calculateTotalTimeCost,
      CostModel.calculateAllocatedIndirectCost, CostModel.monthlyIndirectCosts]

/-- Saves that re-store what the store already holds change nothing. -/
theorem foldl_save_id : ∀ (l : List (String × JVal)) (st : Store),
    (∀ p ∈ l, st p.1 = some p.2) →
    ∀ k, (l.foldl (fun acc p => saveToStorage acc p.1 p.2) st) k = st k := by
  intro l
  induction l with
  | nil => intro st _ k; rfl
  | cons p ps ih =>
    intro st h k
    rw [List.foldl_cons]
    have hst : ∀ q ∈ ps, (saveToStorage st p.1 p.2) q.1 = some q.2 := by
      intro q hq
      unfold saveToStorage Store.set
      by_cases hk : q.1 = p.1
      · rw [if_pos hk]
        have h1 := h p (List.mem_cons_self _ _)
        have h2 := h q (List.mem_cons_of_mem _ hq)
        rw [hk, h1] at h2
        rw [← h1]
        rw [h1]
        exact h2
      · rw [if_neg hk]
        exact h q (List.mem_cons_of_mem _ hq)
    rw [ih _ hst k]
    unfold saveToStorage Store.set
    by_cases hk : k = p.1
    · rw [if_pos hk, hk]
      exact (h p (List.mem_cons_self _ _)).symm
    · rw [if_neg hk]

/-- The import fold over all entries equals the save fold over the recognized
non-null writes. -/
theorem foldl_import_step : ∀ (fields : List (String × JVal)) (st : Store),
    fields.foldl
      (fun acc p =>
        match storageKeyFor p.1 with
        | some sk => if p.2.isNull then acc else saveToStorage acc sk p.2
        | none => acc) st =
    (performedWrites fields).foldl (fun acc p => saveToStorage acc p.1 p.2) st := by
  intro fields
  induction fields with
  | nil => intro st; rfl
  | cons p ps ih =>
    intro st
    cases hsk : storageKeyFor p.1 with
    | none =>
      simp only [List.foldl_cons, performedWrites, List.filterMap_cons, hsk]
      simp only [performedWrites] at ih
      exact ih st
    | some sk =>
      by_cases hn : p.2.isNull = true
      · simp only [List.foldl_cons, performedWrites, List.filterMap_cons, hsk, hn,
          if_true]
        simp only [performedWrites] at ih
        exact ih st
      · simp only [List.foldl_cons, performedWrites, List.filterMap_cons, hsk, hn,
          if_false, Bool.false_eq_true]
        simp only [performedWrites] at ih
        exact ih (saveToStorage st sk p.2)

/-- importAllData on a parsed object document returns true and performs
exactly the recognized non-null writes, in order. -/
theorem importAllData_jobj (fields : List (String × JVal)) (st : Store) :
    importAllData (some (JVal.jobj fields)) st =
      (true, (performedWrites fields).foldl (fun acc p => saveToStorage acc p.1 p.2) st) := by
  show (true,
    fields.foldl
      (fun acc p =>
        match storageKeyFor p.1 with
        | some sk => if p.2.isNull then acc else saveToStorage acc sk p.2
        | none => acc) st) = _
  rw [foldl_import_step]

/-- Each STORAGE_KEYS entry is recognized and maps to its own storage key. -/
theorem storage_keys_consistent : ∀ q ∈ STORAGE_KEYS, storageKeyFor q.1 = some q.2 := by
  decide

/-- C8: importing the document produced by exportAllData back into the same
store returns true and leaves every key — in particular every storage
category, the scenarios mapping included — with the same content as before
the round trip. -/
theorem c8_export_import_round_trip (st : Store) :
    (importAllData (some (exportAllData st)) st).1 = true ∧
    ∀ k, (importAllData (some (exportAllData st)) st).2 k = st k := by
  have hobj : importAllData (some (exportAllData st)) st =
      (true,
       (performedWrites (STORAGE_KEYS.map
           (fun p => (p.1, loadFromStorage st p.2 JVal.jnull)))).foldl
         (fun acc p => saveToStorage acc p.1 p.2) st) := by
    unfold exportAllData
    exact importAllData_jobj _ _
  refine ⟨by rw [hobj], ?_⟩
  intro k
  rw [hobj]
  apply foldl_save_id
  intro p hp
  simp only [performedWrites] at hp
  rcases List.mem_filterMap.mp hp with ⟨a, ha, hfa⟩
  rcases List.mem_map.mp ha with ⟨q, hq, rfl⟩
  have hkey : storageKeyFor q.1 = some q.2 := storage_keys_consistent q hq
  simp only [hkey] at hfa
  cases hst : st q.2 with
  | none =>
    rw [show loadFromStorage st q.2 JVal.jnull = JVal.jnull from
      by unfold loadFromStorage; rw [hst]] at hfa
    simp [JVal.isNull] at hfa
  | some w =>
    have hload : loadFromStorage st q.2 JVal.jnull = w := by
      unfold loadFromStorage; rw [hst]
    rw [hload] at hfa
    by_cases hw : w.isNull = true
    · rw [if_pos hw] at hfa
      exact absurd hfa (by simp)
    · rw [if_neg hw] at hfa
      have hpe : (q.2, w) = p := Option.some.inj hfa
      rw [← hpe]
      exact hst
